import Mathlib

/-!
Verification development for the alfred order-fulfillment automation engine
(Seamless variant in `perform.js`, Grubhub variant in the unnamed perform
module). The definitions below are shallow embeddings of the pure decision
logic of the source: browser interactions are abstracted into the data they
read from or write to the page, and the selection / validation / retry
decisions are modelled exactly as the source computes them.
-/

namespace Alfred

/-! ## String helpers

`jsIncludes s sub` models JavaScript `s.includes(sub)`: substring
containment. `jsToLower` models `String.prototype.toLowerCase` (the
source only compares ASCII names). -/

/-- `listLeads pat hay` is true when `pat` is an initial segment of `hay`. -/
def listLeads : List Char → List Char → Bool
  | [], _ => true
  | _ :: _, [] => false
  | p :: ps, h :: hs => p == h && listLeads ps hs

/-- Substring containment on character lists. -/
def charListIncludes (hay pat : List Char) : Bool :=
  (List.range (hay.length + 1)).any (fun i => listLeads pat (hay.drop i))

/-- Models JavaScript `s.includes(sub)`. -/
def jsIncludes (s sub : String) : Bool :=
  charListIncludes s.toList sub.toList

/-- Models JavaScript `s.toLowerCase()` (the source only compares ASCII
names). -/
def jsToLower (s : String) : String :=
  String.mk (s.toList.map Char.toLower)

/-! ## Fuzzy matching (`chooseRestaurant`, `fillOrders`, `data_util.mjs`)

Each matcher embeds the candidate-scanning loop of the source. The
candidates are the texts rendered on the surface (or catalog keys), in
iteration order; the result is the candidate the loop leaves selected. -/

/-- `perform.js` `chooseRestaurant` lines 203-209: scans every
`a[name="vendorLocation"]` link text and keeps overwriting `ourRest`
whenever `text.includes(restaurant)` holds (case-sensitive, no break). -/
def chooseRestaurant (restLinks : List String) (restaurant : String) : Option String :=
  restLinks.foldl (fun memo text => if jsIncludes text restaurant then some text else memo) none

/-- `perform.js` `fillOrders` lines 253-259: scans every `a[name="product"]`
link text lowercased and keeps overwriting `ourItem` whenever it contains
the lowercased item name (no break). -/
def fillOrdersPickItem (itemLinks : List String) (item : String) : Option String :=
  itemLinks.foldl
    (fun memo text => if jsIncludes (jsToLower text) (jsToLower item) then some text else memo) none

/-- `perform.js` `fillOrders` lines 264-275: for one requested option, scans
the `li label` texts and clicks the first one containing the option
text case-insensitively (`if (done) break`). -/
def fillOrdersPickOption (optionLinks : List String) (opt : String) : Option String :=
  optionLinks.find? (fun text => jsIncludes (jsToLower text) (jsToLower opt))

/-- `data_util.mjs` `find_restaurant_by_name`: reduce over the catalog keys
with initial value `{}`, returning the data of a key whenever it contains
the query case-insensitively, so a later matching key overwrites an earlier
one. The model returns the matched key (the source returns
`MENU_DATA[name]`, the record stored under that key). -/
def find_restaurant_by_name (restNames : List String) (restName : String) : Option String :=
  restNames.foldl
    (fun memo name => if jsIncludes (jsToLower name) (jsToLower restName) then some name else memo) none

/-- `data_util.mjs` `find_item_by_name`: same overwrite-on-match reduce over
the menu item names. -/
def find_item_by_name (itemNames : List String) (itemName : String) : Option String :=
  itemNames.foldl
    (fun memo name => if jsIncludes (jsToLower name) (jsToLower itemName) then some name else memo) none

/-! A generic fact about the overwrite-on-match fold used above: it selects
the LAST matching candidate, i.e. the first match of the reversed list. -/

theorem foldl_overwrite_eq_find_reverse (l : List α) (p : α → Bool) (init : Option α) :
    l.foldl (fun memo x => if p x then some x else memo) init =
      (l.reverse.find? p).or init := by
  induction l generalizing init with
  | nil => simp
  | cons h t ih =>
    simp only [List.foldl_cons, ih, List.reverse_cons, List.find?_append]
    cases ht : t.reverse.find? p with
    | some a => simp [Option.or]
    | none =>
      by_cases hp : p h <;> simp [List.find?, hp, Option.or]

/-! ## Step pipeline and retry controller (`orderFromRestaurant`)

A step in the source returns `undefined` (no output), an object with an
`errors` field (and a `retry` flag, absent meaning false), or an output
object merged into `result`. A step body may also throw; `perform.js`
converts any exception that escapes a step at the `orderFromRestaurant`
boundary (lines 173-178) into `{ errors: ["Order failed for unknown
reason."] }`, with no `retry` field. -/

/-- An `{ errors, retry }` step return value; a missing `retry` field is
falsy in the source, so it is modelled as `retry := false`. -/
structure FailOut where
  retry : Bool
  errors : List String
  deriving DecidableEq, Repr

/-- What one step of a pipeline attempt produces. -/
inductive StepRes (α : Type) where
  /-- The step returned `undefined`. -/
  | noOut : StepRes α
  /-- The step returned an `errors` object. -/
  | fail : FailOut → StepRes α
  /-- The step returned an output object, merged into `result`. -/
  | out : α → StepRes α
  /-- The step threw an exception that escapes to the boundary `catch`. -/
  | thrown : String → StepRes α
  deriving DecidableEq, Repr

/-- Result of running one full attempt's step list. -/
inductive AttemptResult (α : Type) where
  | ok : α → AttemptResult α
  | fail : FailOut → AttemptResult α
  | crashed : String → AttemptResult α
  deriving DecidableEq, Repr

/-- Final result of `orderFromRestaurant`: the merged `result` on success,
or the `errors` object returned to the caller. -/
inductive PipeResult (α : Type) where
  | ok : α → PipeResult α
  | fail : FailOut → PipeResult α
  deriving DecidableEq, Repr

/-- The step loop of `orderFromRestaurant` (lines 144-158): run the steps
in order; a falsy output continues, an `errors` output halts the loop, and
any other output is `Object.assign`ed into `result`. An exception unwinds
to the boundary `catch`. -/
def runAttempt (merge : α → α → α) : List (StepRes α) → α → AttemptResult α
  | [], result => .ok result
  | .noOut :: rest, result => runAttempt merge rest result
  | .fail f :: _, _ => .fail f
  | .out o :: rest, result => runAttempt merge rest (merge result o)
  | .thrown msg :: _, _ => .crashed msg

/-- How many steps of an attempt's step list actually execute: the loop
stops at the first step that returns `errors` or throws. -/
def attemptStepsRun : List (StepRes α) → Nat
  | [] => 0
  | .noOut :: rest => 1 + attemptStepsRun rest
  | .fail _ :: _ => 1
  | .out _ :: rest => 1 + attemptStepsRun rest
  | .thrown _ :: _ => 1

/-- `const INITIAL_RETRIES = 2;` (`perform.js` line 26). -/
def INITIAL_RETRIES : Nat := 2

/-- The generic failure produced by the boundary `catch` of
`orderFromRestaurant`: `{ errors: ["Order failed for unknown reason."] }`,
whose missing `retry` field is falsy. -/
def unknownReasonFailure : FailOut :=
  ⟨false, ["Order failed for unknown reason."]⟩

/-- `orderFromRestaurant` retry control: on a step failure with
`retry: true` and `retries > 0`, recurse on the whole pipeline with
`retries - 1`; otherwise return the failure. An exception reaching the
boundary `catch` returns the generic failure at once. `attempts i` gives
attempt `i`'s step outcomes (successive attempts may observe different
surface behaviour). -/
def orderFromRestaurant (attempts : Nat → List (StepRes α)) (merge : α → α → α)
    (init : α) : Nat → Nat → PipeResult α
  | retries, idx =>
    match runAttempt merge (attempts idx) init with
    | .ok r => .ok r
    | .crashed _ => .fail unknownReasonFailure
    | .fail f =>
      if f.retry then
        match retries with
        | 0 => .fail f
        | r + 1 => orderFromRestaurant attempts merge init r (idx + 1)
      else .fail f

/-- Number of times the pipeline (the full step sequence) is invoked by
`orderFromRestaurant` starting with the given retry budget. -/
def pipelineInvocations (attempts : Nat → List (StepRes α)) (merge : α → α → α)
    (init : α) : Nat → Nat → Nat
  | retries, idx =>
    match runAttempt merge (attempts idx) init with
    | .fail f =>
      if f.retry then
        match retries with
        | 0 => 1
        | r + 1 => 1 + pipelineInvocations attempts merge init r (idx + 1)
      else 1
    | _ => 1

/-- A step outcome that lets the loop continue (`undefined` or a merged
output object). -/
def isContinueStep : StepRes α → Bool
  | .noOut => true
  | .out _ => true
  | .fail _ => false
  | .thrown _ => false

/-- Running an attempt whose prefix is all continue-steps reaches the first
failure and returns it, regardless of what follows it. -/
theorem runAttempt_first_fail (merge : α → α → α) (f : FailOut)
    (post : List (StepRes α)) :
    ∀ (pre : List (StepRes α)) (init : α), (∀ s ∈ pre, isContinueStep s = true) →
      runAttempt merge (pre ++ .fail f :: post) init = .fail f := by
  intro pre
  induction pre with
  | nil => intro init _; rfl
  | cons s t ih =>
    intro init hpre
    have hs : isContinueStep s = true := hpre s (List.mem_cons_self s t)
    have ht : ∀ x ∈ t, isContinueStep x = true :=
      fun x hx => hpre x (List.mem_cons_of_mem s hx)
    cases s with
    | noOut => simpa [runAttempt] using ih init ht
    | out o => simpa [runAttempt] using ih (merge init o) ht
    | fail g => simp [isContinueStep] at hs
    | thrown m => simp [isContinueStep] at hs

/-- The number of steps run in such an attempt is the prefix length plus
one: no step after the failing step executes. -/
theorem attemptStepsRun_first_fail (f : FailOut) (post : List (StepRes α)) :
    ∀ pre : List (StepRes α), (∀ s ∈ pre, isContinueStep s = true) →
      attemptStepsRun (pre ++ .fail f :: post) = pre.length + 1 := by
  intro pre
  induction pre with
  | nil => intro _; rfl
  | cons s t ih =>
    intro hpre
    have hs : isContinueStep s = true := hpre s (List.mem_cons_self s t)
    have ht : ∀ x ∈ t, isContinueStep x = true :=
      fun x hx => hpre x (List.mem_cons_of_mem s hx)
    cases s with
    | noOut =>
      have hstep : attemptStepsRun ((StepRes.noOut : StepRes α) :: (t ++ .fail f :: post)) =
          1 + attemptStepsRun (t ++ .fail f :: post) := rfl
      rw [List.cons_append, hstep, ih ht, List.length_cons]
      omega
    | out o =>
      have hstep : attemptStepsRun (StepRes.out o :: (t ++ .fail f :: post)) =
          1 + attemptStepsRun (t ++ .fail f :: post) := rfl
      rw [List.cons_append, hstep, ih ht, List.length_cons]
      omega
    | fail g => simp [isContinueStep] at hs
    | thrown m => simp [isContinueStep] at hs

/-- If every attempt's run ends in a retryable failure, the number of
pipeline invocations is the retry budget plus one. -/
theorem pipelineInvocations_all_retryable (attempts : Nat → List (StepRes α))
    (merge : α → α → α) (init : α)
    (h : ∀ i, ∃ errs, runAttempt merge (attempts i) init = .fail ⟨true, errs⟩) :
    ∀ retries idx, pipelineInvocations attempts merge init retries idx = retries + 1 := by
  intro retries
  induction retries with
  | zero =>
    intro idx
    obtain ⟨errs, he⟩ := h idx
    simp [pipelineInvocations, he]
  | succ r ih =>
    intro idx
    obtain ⟨errs, he⟩ := h idx
    simp only [pipelineInvocations, he, ih (idx + 1), if_true]
    omega

/-- If every attempt's run ends in a retryable failure, the final result is
that of the last attempt: a failure. -/
theorem orderFromRestaurant_all_retryable (attempts : Nat → List (StepRes α))
    (merge : α → α → α) (init : α)
    (h : ∀ i, ∃ errs, runAttempt merge (attempts i) init = .fail ⟨true, errs⟩) :
    ∀ retries idx, ∃ f, orderFromRestaurant attempts merge init retries idx = .fail f := by
  intro retries
  induction retries with
  | zero =>
    intro idx
    obtain ⟨errs, he⟩ := h idx
    exact ⟨⟨true, errs⟩, by simp [orderFromRestaurant, he]⟩
  | succ r ih =>
    intro idx
    obtain ⟨errs, he⟩ := h idx
    obtain ⟨f, hf⟩ := ih (idx + 1)
    exact ⟨f, by simp [orderFromRestaurant, he, hf]⟩

/-! ## Budget validator (`fillNames`)

Both variants read the surface-reported allocation amounts
(`amountAllocated`), and when `Math.max.apply(null, amountAllocated) > 25`
they build a `retry: false` failure whose message carries the excess over
`n × 25` and the participant found by a strict-max reduce over the
`orderAmounts` object produced by `fillOrders`. The model keeps the
message's numeric content (`excess`, offender, offender amount) as exact
rationals instead of the `toFixed(2)`-formatted string. -/

/-- `Math.max.apply(null, l) > c`: false on the empty list
(`Math.max()` is `-Infinity`), otherwise true iff some element exceeds
`c`. -/
def maxExceeds (l : List Rat) (c : Rat) : Bool :=
  l.any (fun a => decide (c < a))

/-- `l.reduce((m, a) => m + a, 0)`. -/
def listSum (l : List Rat) : Rat :=
  l.foldl (· + ·) 0

/-- One step of the `maxOrder` reduce: replace the memo exactly when the
current amount is strictly greater (`orderAmounts[u] > memo.amount`). -/
def maxOrderStep (memo : Option String × Rat) (p : String × Rat) : Option String × Rat :=
  if memo.2 < p.2 then (some p.1, p.2) else memo

/-- The `maxOrder` reduce of `fillNames` (lines 351-360): initial memo
`{ amount: 0 }` with no `username` field, scanning `Object.keys(orderAmounts)`
in insertion order. -/
def maxOrderSearch (orderAmounts : List (String × Rat)) : Option String × Rat :=
  orderAmounts.foldl maxOrderStep (none, 0)

/-- Outcome of `fillNames`: either no return value (the step continues) or
the `retry: false` budget-violation failure with the message's numeric
content. -/
inductive FillNamesResult where
  | ok : FillNamesResult
  | violation (retry : Bool) (excess : Rat) (offender : Option String)
      (offenderAmount : Rat) : FillNamesResult
  deriving DecidableEq, Repr

/-- `perform.js` `fillNames` lines 344-367 (budget check): read the
`input.allocationAmt` values; if their max exceeds 25, fail fatally with
excess `sum − usernames.length × 25` and the strict-max participant of
`orderAmounts`. -/
def fillNames (usernames : List String) (orderAmounts : List (String × Rat))
    (amountAllocated : List Rat) : FillNamesResult :=
  if maxExceeds amountAllocated 25 then
    let orderTotal := listSum amountAllocated
    let excess := orderTotal - (usernames.length : Rat) * 25
    let maxOrder := maxOrderSearch orderAmounts
    .violation false excess maxOrder.1 maxOrder.2
  else .ok

/-- Modelled from the spec (§4.2), for comparison with the code: "The
offending participant is the one with the single highest AllocationAmount
among all participants in the batch (ties broken by first-encountered
order)". -/
def specOffender (l : List (String × Rat)) : Option String :=
  (l.find? (fun p => l.all (fun q => decide (q.2 ≤ p.2)))).map Prod.fst

/-- The strict-max reduce leaves the memo unchanged when no amount exceeds
it. -/
theorem maxOrderFold_stay (l : List (String × Rat)) :
    ∀ acc : Option String × Rat, (∀ p ∈ l, p.2 ≤ acc.2) →
      l.foldl maxOrderStep acc = acc := by
  induction l with
  | nil => intro acc _; rfl
  | cons h t ih =>
    intro acc hle
    have hh : h.2 ≤ acc.2 := hle h (List.mem_cons_self h t)
    have hstep : maxOrderStep acc h = acc := by
      simp [maxOrderStep, not_lt_of_ge hh]
    rw [List.foldl_cons, hstep]
    exact ih acc (fun p hp => hle p (List.mem_cons_of_mem h hp))

/-- When the list attains a maximum `M` strictly above the memo, the
strict-max reduce returns the first pair whose amount equals `M`. -/
theorem maxOrderFold_find (M : Rat) (l : List (String × Rat)) :
    ∀ acc : Option String × Rat, (∀ p ∈ l, p.2 ≤ M) → (∃ p ∈ l, p.2 = M) →
      acc.2 < M →
      ∃ p, l.find? (fun q => q.2 == M) = some p ∧
        l.foldl maxOrderStep acc = (some p.1, M) := by
  induction l with
  | nil => intro acc _ hex _; simp at hex
  | cons h t ih =>
    intro acc hle hex hacc
    by_cases hM : h.2 = M
    · refine ⟨h, ?_, ?_⟩
      · simp [List.find?, hM]
      · have hstep : maxOrderStep acc h = (some h.1, h.2) := by
          simp [maxOrderStep, hM ▸ hacc]
        rw [List.foldl_cons, hstep, hM]
        exact maxOrderFold_stay t (some h.1, M)
          (fun p hp => hle p (List.mem_cons_of_mem h hp))
    · have hlt : h.2 < M :=
        lt_of_le_of_ne (hle h (List.mem_cons_self h t)) hM
      have hext : ∃ p ∈ t, p.2 = M := by
        obtain ⟨p, hp, hpM⟩ := hex
        rcases List.mem_cons.mp hp with rfl | hpt
        · exact absurd hpM hM
        · exact ⟨p, hpt, hpM⟩
      have hlet : ∀ p ∈ t, p.2 ≤ M :=
        fun p hp => hle p (List.mem_cons_of_mem h hp)
      have hacc' : (maxOrderStep acc h).2 < M := by
        by_cases hc : acc.2 < h.2 <;> simp [maxOrderStep, hc, hlt, hacc]
      obtain ⟨p, hfind, hfold⟩ := ih (maxOrderStep acc h) hlet hext hacc'
      refine ⟨p, ?_, ?_⟩
      · have : (h.2 == M) = false := by simp [hM]
        simp [List.find?, this, hfind]
      · rw [List.foldl_cons]; exact hfold

/-- `find?` only depends on the predicate's values on the list. -/
theorem find?_congr_mem (l : List α) (p q : α → Bool)
    (h : ∀ x ∈ l, p x = q x) : l.find? p = l.find? q := by
  induction l with
  | nil => rfl
  | cons a t ih =>
    have ha := h a (List.mem_cons_self a t)
    have ht := fun x hx => h x (List.mem_cons_of_mem a hx)
    simp only [List.find?, ha, ih ht]

/-- Every nonempty list of pairs has a member whose amount bounds all
amounts. -/
theorem exists_max_pair (l : List (String × Rat)) (hne : l ≠ []) :
    ∃ p ∈ l, ∀ q ∈ l, q.2 ≤ p.2 := by
  induction l with
  | nil => exact absurd rfl hne
  | cons h t ih =>
    rcases eq_or_ne t [] with rfl | hte
    · exact ⟨h, List.mem_cons_self h [], by
        intro q hq
        rcases List.mem_cons.mp hq with rfl | hq'
        · exact le_refl _
        · simp at hq'⟩
    · obtain ⟨p, hp, hmax⟩ := ih hte
      rcases le_total h.2 p.2 with hle | hle
      · refine ⟨p, List.mem_cons_of_mem h hp, ?_⟩
        intro q hq
        rcases List.mem_cons.mp hq with rfl | hq'
        · exact hle
        · exact hmax q hq'
      · refine ⟨h, List.mem_cons_self h t, ?_⟩
        intro q hq
        rcases List.mem_cons.mp hq with rfl | hq'
        · exact le_refl _
        · exact le_trans (hmax q hq') hle

/-- When some amount is positive, the code's strict-max reduce agrees with
the spec's offending-participant rule (highest amount, ties broken by
first-encountered order), and the reported amount is that participant's. -/
theorem maxOrderSearch_eq_specOffender (l : List (String × Rat))
    (hpos : ∃ p ∈ l, 0 < p.2) :
    ∃ p ∈ l, specOffender l = some p.1 ∧ maxOrderSearch l = (some p.1, p.2) ∧
      ∀ q ∈ l, q.2 ≤ p.2 := by
  have hne : l ≠ [] := by
    rintro rfl; obtain ⟨p, hp, _⟩ := hpos; simp at hp
  obtain ⟨p0, hp0, hmax0⟩ := exists_max_pair l hne
  set M := p0.2 with hMdef
  have hMpos : 0 < M := by
    obtain ⟨p, hp, hppos⟩ := hpos
    exact lt_of_lt_of_le hppos (hmax0 p hp)
  obtain ⟨p, hfind, hfold⟩ :=
    maxOrderFold_find M l (none, 0) hmax0 ⟨p0, hp0, rfl⟩ hMpos
  have hpmem : p ∈ l := List.mem_of_find?_eq_some hfind
  have hpM : p.2 = M := by
    have := List.find?_some hfind
    exact eq_of_beq this
  have hcongr : l.find? (fun q => l.all (fun r => decide (r.2 ≤ q.2))) =
      l.find? (fun q => q.2 == M) := by
    apply find?_congr_mem
    intro x hx
    by_cases hxM : x.2 = M
    · have hall : (l.all fun r => decide (r.2 ≤ M)) = true := by
        simp only [List.all_eq_true]
        intro r hr
        simpa using hmax0 r hr
      simp only [hxM, hall, beq_self_eq_true]
    · have hxlt : x.2 < M := lt_of_le_of_ne (hmax0 x hx) hxM
      have hall : (l.all fun r => decide (r.2 ≤ x.2)) = false := by
        simp only [List.all_eq_false]
        exact ⟨p0, hp0, by simpa using not_le_of_gt hxlt⟩
      simp only [hall]
      exact (beq_eq_false_iff_ne.mpr hxM).symm
  refine ⟨p, hpmem, ?_, ?_, ?_⟩
  · simp [specOffender, hcongr, hfind]
  · rw [maxOrderSearch, hfold, hpM]
  · intro q hq; rw [hpM]; exact hmax0 q hq

/-- When no amount is positive, the strict-max reduce keeps its initial
memo: no participant is identified, and the reported amount is `0`. -/
theorem maxOrderSearch_nonpos (l : List (String × Rat))
    (h : ∀ p ∈ l, p.2 ≤ 0) : maxOrderSearch l = (none, 0) :=
  maxOrderFold_stay l (none, 0) h

/-! ## Participants, orders, and the Grubhub variant's steps -/

/-- One participant's order within a batch (the Grubhub variant's
`userOrders` entries): slack id, items as `(name, options)` pairs, and the
donor flag. -/
structure UserOrder where
  slackId : String
  items : List (String × List String)
  isDonor : Bool
  deriving DecidableEq, Repr

/-- A restaurant batch as produced by
`Transform.indexByRestaurantAndUser`. -/
structure OrderSet where
  restaurant : String
  users : List UserOrder
  deriving DecidableEq, Repr

/-- A record from the user directory (`Users.getUser`). -/
structure GhUser where
  slackId : String
  name : String
  phone : String
  deriving DecidableEq, Repr

/-- The merged pipeline `result` of a successful batch: the callee user
saved by `fillPhoneNumber` and the `orderAmounts` saved by `fillOrders`. -/
structure OrderResult where
  user : GhUser
  orderAmounts : List (String × Rat)
  deriving DecidableEq, Repr

/-- Output object of `fillOrders` (`return { orderAmounts }`). -/
structure FillOrdersOut where
  orderAmounts : List (String × Rat)
  deriving DecidableEq, Repr

/-- Item pick of the Grubhub `fillOrders` (part_001 lines 252-260): scan
the `h6.menuItem-name a` texts and click the first whose trimmed text
equals the item name exactly (`break` on match). -/
def ghPickItem (itemLinks : List String) (item : String) : Option String :=
  itemLinks.find? (fun text => text == item)

/-- The sequence of item picks the Grubhub `fillOrders` loop performs, in
order: for every participant, for every item selection. The clicks are
side effects on the surface; `orderAmounts` is never written by this loop
(the accumulation at part_001 lines 249 and 283 is commented out). -/
def cartSelections_gh (itemLinks : List String) (userOrders : List UserOrder) :
    List (Option String) :=
  (userOrders.map (fun o => o.items.map (fun it => ghPickItem itemLinks it.1))).flatten

/-- The page observations the Grubhub `fillOrders` outcome depends on. -/
structure GhPage where
  /-- The item/option interaction loop completed without throwing. -/
  itemsOk : Bool
  /-- Message of the exception thrown in the loop otherwise. -/
  itemsErr : String
  /-- `!document.querySelector("button#ghs-cart-checkout-button").disabled`:
  the surface-reported minimum order threshold is met. -/
  checkoutEnabled : Bool
  /-- Clicking checkout and waiting for navigation succeeded. -/
  checkoutNavOk : Bool
  /-- Message of the navigation exception otherwise. -/
  checkoutNavErr : String
  deriving DecidableEq, Repr

/-- Grubhub `fillOrders` (part_001 lines 245-314): an exception in the
item loop fails retryably; a disabled checkout button (minimum order
threshold not met) returns `retry: false`; a checkout navigation failure
fails retryably; otherwise the step outputs `{ orderAmounts }`, which is
the still-empty object. -/
def fillOrders_gh (page : GhPage) (userOrders : List UserOrder) : StepRes FillOrdersOut :=
  let orderAmounts : List (String × Rat) := []
  if page.itemsOk = false then .fail ⟨true, [page.itemsErr]⟩
  else if page.checkoutEnabled = false then .fail ⟨false, ["Delivery minimum not met."]⟩
  else if page.checkoutNavOk = false then .fail ⟨true, [page.checkoutNavErr]⟩
  else .out ⟨orderAmounts⟩

/-- Seamless `fillOrders` after the item loop (`perform.js` lines
293-314): when no `a.findfoodbutton` exists (delivery minimum not met),
the error-message construction evaluates `orderAmounts.map(...)` on a
plain object, which throws a `TypeError` that escapes `fillOrders` (this
code is outside both of its `try` blocks) to the pipeline boundary.
Otherwise clicking through fails retryably on a navigation exception or
outputs `{ orderAmounts }`. -/
def fillOrders_sl_tail (continueLinksCount : Nat)
    (orderAmounts : List (String × Rat)) (navOk : Bool) (navErr : String) :
    StepRes FillOrdersOut :=
  if continueLinksCount = 0 then
    .thrown "TypeError: orderAmounts.map is not a function"
  else if navOk then .out ⟨orderAmounts⟩
  else .fail ⟨true, [navErr]⟩

/-- The names the Grubhub `fillNames` types into the cost-split allocation
UI (part_001 lines 327-337): each listed slack id's registered display
name, except the ordering account's own name, skipped by
`if (name.toLowerCase() === "ajay gandhi") continue;`. `users` is the user
directory lookup `Users.getUser(·).name`. -/
def fillNamesEntered_gh (users : String → String) (slackIds : List String) :
    List String :=
  slackIds.filterMap (fun sid =>
    let name := users sid
    if jsToLower name == "ajay gandhi" then none else some name)

/-- Grubhub `fillNames` (part_001 lines 321-370): the names entered into
the allocation UI and the budget-check outcome over the saved allocation
cells. -/
structure FillNamesGhOut where
  entered : List String
  outcome : FillNamesResult
  deriving DecidableEq, Repr

/-- Grubhub `fillNames`: enter names (skipping the ordering account's own
name), then run the same budget check as the Seamless variant over the
`div.allocation-saved-cell` amounts, with the `maxOrder` search over the
`orderAmounts` received from `fillOrders`. -/
def fillNames_gh (users : String → String) (slackIds : List String)
    (orderAmounts : List (String × Rat)) (amountAllocated : List Rat) :
    FillNamesGhOut where
  entered := fillNamesEntered_gh users slackIds
  outcome :=
    if maxExceeds amountAllocated 25 then
      let orderTotal := listSum amountAllocated
      let excess := orderTotal - (slackIds.length : Rat) * 25
      let maxOrder := maxOrderSearch orderAmounts
      .violation false excess maxOrder.1 maxOrder.2
    else .ok

/-! ## Callee selection (`fillPhoneNumber`) and stats recording (`go`) -/

/-- The eligible callee pool of the Grubhub `fillPhoneNumber` (part_001
line 378): `orders.reduce((memo, o) => o.isDonor ? memo :
memo.concat(o.slackId), [])`. -/
def calleePool (orders : List UserOrder) : List String :=
  orders.foldl (fun memo o => if o.isDonor then memo else memo ++ [o.slackId]) []

/-- The callee the Grubhub `fillPhoneNumber` selects:
`slackIds[Math.floor(Math.random() * slackIds.length)]`; the random draw
is modelled by the index `pick`, which the source guarantees to be below
the pool length whenever the pool is nonempty. -/
def fillPhoneNumberSelect (orders : List UserOrder) (pick : Nat) : Option String :=
  (calleePool orders).get? pick

/-- `go` (part_001 line 59): `orderSet.users.filter(u => !u.isDonor)`, the
participants reported in results and recorded in stats. -/
def orderParticipants (users : List UserOrder) : List UserOrder :=
  users.filter (fun u => !u.isDonor)

/-- `orderAmounts[slackId]`: key lookup in the object, `none` for a missing
key (JavaScript `undefined`). -/
def lookupAmt (orderAmounts : List (String × Rat)) (slackId : String) : Option Rat :=
  (orderAmounts.find? (fun p => p.1 == slackId)).map Prod.snd

/-- One `Stats.recordStats(slackId, restaurant, amount, items, isCallee)`
call; a missing `orderAmounts` key passes `undefined` (`none`). -/
structure StatsRecord where
  slackId : String
  restaurant : String
  amountSpent : Option Rat
  items : List (String × List String)
  wasCallee : Bool
  deriving DecidableEq, Repr

/-- The stats calls `go` issues for one successful batch (part_001 lines
78-82): one per non-donor participant. -/
def statsRecords (os : OrderSet) (r : OrderResult) : List StatsRecord :=
  (orderParticipants os.users).map (fun u =>
    ⟨u.slackId, os.restaurant, lookupAmt r.orderAmounts u.slackId, u.items,
      r.user.slackId == u.slackId⟩)

/-! ## Result aggregation (`go`) -/

/-- `[\W_]+` membership: a character that is NOT an ASCII letter or
digit (JavaScript `\W` is `[^A-Za-z0-9_]` and the class re-adds `_`). -/
def isWordChar (c : Char) : Bool :=
  (97 ≤ c.toNat && c.toNat ≤ 122) || (65 ≤ c.toNat && c.toNat ≤ 90) ||
    (48 ≤ c.toNat && c.toNat ≤ 57)

/-- `n.replace(/[\W_]+/g, "_")`: collapse each maximal run of
non-alphanumeric characters into one underscore. The boolean accumulator
tracks whether the previous character was part of such a run. -/
def collapseRuns (cs : List Char) : List Char :=
  (cs.foldl (fun acc c =>
    if isWordChar c then (acc.1 ++ [c], false)
    else if acc.2 then acc
    else (acc.1 ++ ['_'], true)) (([] : List Char), false)).1

/-- `.replace(/^_+|_+$/g, "")`. -/
def stripUnderscores (cs : List Char) : List Char :=
  ((cs.dropWhile (fun c => c == '_')).reverse.dropWhile (fun c => c == '_')).reverse

/-- `sanitizeFilename` (`perform.js` lines 397-398). -/
def sanitizeFilename (n : String) : String :=
  String.mk ((stripUnderscores (collapseRuns n.toList)).map Char.toLower)

/-- The confirmation URL pushed for a successful batch. -/
def confirmationUrl (restaurant : String) : String :=
  "https://alfred.ajay-gandhi.com/confirmations/" ++ sanitizeFilename restaurant ++ ".pdf"

/-- One entry of `results` (part_001 lines 61-87). -/
inductive BatchResult where
  | failure (restaurant : String) (users : List UserOrder) (errors : List String) :
      BatchResult
  | success (restaurant : String) (userCall : String) (confirmationUrl : String) :
      BatchResult
  deriving DecidableEq, Repr

/-- The restaurant a `BatchResult` reports. -/
def BatchResult.restaurant : BatchResult → String
  | .failure r _ _ => r
  | .success r _ _ => r

/-- The single result `go` pushes for one batch, from the
`orderFromRestaurant` outcome. -/
def batchResultOf (runBatch : OrderSet → PipeResult OrderResult) (os : OrderSet) :
    BatchResult :=
  match runBatch os with
  | .fail f => .failure os.restaurant (orderParticipants os.users) f.errors
  | .ok r => .success os.restaurant r.user.slackId (confirmationUrl os.restaurant)

/-- The `results` array `go` builds: the loop over `orderSets` pushes
exactly one entry per batch, in order. `runBatch` abstracts
`orderFromRestaurant`, which always returns a value (its boundary `catch`
converts exceptions). -/
def go_results (runBatch : OrderSet → PipeResult OrderResult)
    (orderSets : List OrderSet) : List BatchResult :=
  orderSets.foldl (fun results os => results ++ [batchResultOf runBatch os]) []

/-- Push-style fold equals append of the mapped list. -/
theorem foldl_push_eq_append_map (f : α → β) (l : List α) :
    ∀ init : List β, l.foldl (fun acc x => acc ++ [f x]) init = init ++ l.map f := by
  induction l with
  | nil => intro init; simp
  | cons h t ih =>
    intro init
    rw [List.foldl_cons, ih (init ++ [f h])]
    simp

/-- `go`'s results are precisely the per-batch results in input order. -/
theorem go_results_eq_map (runBatch : OrderSet → PipeResult OrderResult)
    (orderSets : List OrderSet) :
    go_results runBatch orderSets = orderSets.map (batchResultOf runBatch) := by
  rw [go_results, foldl_push_eq_append_map]
  simp

/-! ## Claim theorems -/

/-- C1 counterexample: with one participant "a" whose accumulated
AllocationAmount is 0 and a surface-reported allocation of 30, the budget
check returns the non-retryable violation with the correct excess
30 − 1×25 = 5 but identifies NO offending participant (`none`), whereas
the claim's rule (highest amount, ties broken by first-encountered order)
names "a". -/
theorem C1_counterexample :
    fillNames ["a"] [("a", 0)] [30] = .violation false 5 none 0 ∧
    specOffender [("a", 0)] = some "a" ∧
    (none : Option String) ≠ some "a" := by
  refine ⟨?_, by decide, by decide⟩
  show fillNames ["a"] [("a", 0)] [30] = .violation false 5 none 0
  norm_num [fillNames, maxExceeds, listSum, maxOrderSearch, maxOrderStep]

/-- C1 (amended): whenever the maximum surface-reported allocation exceeds
25, `fillNames` returns a non-retryable Violation whose excess is the sum
of all allocations minus participantCount × 25; the offending participant
is the one with the single highest AllocationAmount (ties broken by
first-encountered order) PROVIDED some AllocationAmount is positive; when
no AllocationAmount is positive, no participant is identified and the
reported amount is 0. -/
theorem C1_budget_violation (usernames : List String)
    (orderAmounts : List (String × Rat)) (amountAllocated : List Rat)
    (hv : maxExceeds amountAllocated 25 = true) :
    ∃ off amt,
      fillNames usernames orderAmounts amountAllocated =
        .violation false (listSum amountAllocated - (usernames.length : Rat) * 25)
          off amt ∧
      ((∃ p ∈ orderAmounts, 0 < p.2) →
        off = specOffender orderAmounts ∧
        ∃ p ∈ orderAmounts, off = some p.1 ∧ amt = p.2 ∧
          ∀ q ∈ orderAmounts, q.2 ≤ p.2) ∧
      ((∀ p ∈ orderAmounts, p.2 ≤ 0) → off = none ∧ amt = 0) := by
  refine ⟨(maxOrderSearch orderAmounts).1, (maxOrderSearch orderAmounts).2, ?_, ?_, ?_⟩
  · simp [fillNames, hv]
  · intro hpos
    obtain ⟨p, hp, hspec, hms, hmax⟩ := maxOrderSearch_eq_specOffender orderAmounts hpos
    refine ⟨by rw [hms]; exact hspec.symm, p, hp, by rw [hms], by rw [hms], hmax⟩
  · intro hnp
    rw [maxOrderSearch_nonpos orderAmounts hnp]
    exact ⟨rfl, rfl⟩

/-- C1 witness: two participants with amounts 10 and 30, allocations
10 and 30. -/
theorem C1_budget_violation_witness :
    ∃ off amt,
      fillNames ["a", "b"] [("a", 10), ("b", 30)] [10, 30] =
        .violation false (listSum [10, 30] - ((["a", "b"] : List String).length : Rat) * 25)
          off amt ∧
      ((∃ p ∈ [("a", (10 : Rat)), ("b", 30)], 0 < p.2) →
        off = specOffender [("a", 10), ("b", 30)] ∧
        ∃ p ∈ [("a", (10 : Rat)), ("b", 30)], off = some p.1 ∧ amt = p.2 ∧
          ∀ q ∈ [("a", (10 : Rat)), ("b", 30)], q.2 ≤ p.2) ∧
      ((∀ p ∈ [("a", (10 : Rat)), ("b", 30)], p.2 ≤ 0) → off = none ∧ amt = 0) :=
  C1_budget_violation ["a", "b"] [("a", 10), ("b", 30)] [10, 30] (by decide)

/-- C2 counterexample: among the candidates "Pizza One" and "Pizza Two",
the item matcher resolves the query "pizza" to the LAST match "Pizza Two",
not the first; and the restaurant matcher of `chooseRestaurant` is
case-sensitive: it fails to resolve "Pizza" against "pizza hut" even
though case-insensitive containment holds. -/
theorem C2_counterexample :
    fillOrdersPickItem ["Pizza One", "Pizza Two"] "pizza" = some "Pizza Two" ∧
    some "Pizza Two" ≠ some "Pizza One" ∧
    chooseRestaurant ["pizza hut"] "Pizza" = none ∧
    jsIncludes (jsToLower "pizza hut") (jsToLower "Pizza") = true := by
  decide

/-- C2 (amended): resolution is by substring containment — lowercased on
both sides in `fillOrders` item matching and in the catalog lookups of
`data_util.mjs`, but case-sensitive in `chooseRestaurant` — and when
multiple candidates match, the LAST match in iteration order is selected;
only option selection inside `fillOrders` picks the first match. -/
theorem C2_match_semantics (links itemLinks optionLinks restNames itemNames : List String)
    (q : String) :
    chooseRestaurant links q = links.reverse.find? (fun t => jsIncludes t q) ∧
    fillOrdersPickItem itemLinks q =
      itemLinks.reverse.find? (fun t => jsIncludes (jsToLower t) (jsToLower q)) ∧
    find_restaurant_by_name restNames q =
      restNames.reverse.find? (fun t => jsIncludes (jsToLower t) (jsToLower q)) ∧
    find_item_by_name itemNames q =
      itemNames.reverse.find? (fun t => jsIncludes (jsToLower t) (jsToLower q)) ∧
    fillOrdersPickOption optionLinks q =
      optionLinks.find? (fun t => jsIncludes (jsToLower t) (jsToLower q)) := by
  refine ⟨?_, ?_, ?_, ?_, rfl⟩
  · have h := foldl_overwrite_eq_find_reverse links (fun t => jsIncludes t q) none
    simpa [chooseRestaurant] using h
  · have h := foldl_overwrite_eq_find_reverse itemLinks
      (fun t => jsIncludes (jsToLower t) (jsToLower q)) none
    simpa [fillOrdersPickItem] using h
  · have h := foldl_overwrite_eq_find_reverse restNames
      (fun t => jsIncludes (jsToLower t) (jsToLower q)) none
    simpa [find_restaurant_by_name] using h
  · have h := foldl_overwrite_eq_find_reverse itemNames
      (fun t => jsIncludes (jsToLower t) (jsToLower q)) none
    simpa [find_item_by_name] using h

/-- C3: a pipeline that returns a retryable failure on every attempt is
invoked exactly `INITIAL_RETRIES + 1 = 3` times by `orderFromRestaurant`
and then produces a terminal failure. -/
theorem C3_retry_budget {α : Type} (attempts : Nat → List (StepRes α))
    (merge : α → α → α) (init : α)
    (h : ∀ i, ∃ errs, runAttempt merge (attempts i) init = .fail ⟨true, errs⟩) :
    pipelineInvocations attempts merge init INITIAL_RETRIES 0 = 3 ∧
    ∃ f, orderFromRestaurant attempts merge init INITIAL_RETRIES 0 = .fail f := by
  exact ⟨pipelineInvocations_all_retryable attempts merge init h INITIAL_RETRIES 0,
    orderFromRestaurant_all_retryable attempts merge init h INITIAL_RETRIES 0⟩

/-- C3 witness: every attempt fails with a navigation timeout. -/
theorem C3_retry_budget_witness :
    pipelineInvocations (fun _ => [StepRes.fail ⟨true, ["Navigation Timeout Exceeded"]⟩])
      (fun _ b : Nat => b) 0 INITIAL_RETRIES 0 = 3 ∧
    ∃ f, orderFromRestaurant (fun _ => [StepRes.fail ⟨true, ["Navigation Timeout Exceeded"]⟩])
      (fun _ b : Nat => b) 0 INITIAL_RETRIES 0 = .fail f :=
  C3_retry_budget (fun _ => [StepRes.fail ⟨true, ["Navigation Timeout Exceeded"]⟩])
    (fun _ b : Nat => b) 0 (fun _ => ⟨["Navigation Timeout Exceeded"], rfl⟩)

/-- C4 counterexample: a cart whose checkout button is disabled (minimum
order threshold not met) makes `fillOrders` return a failure with
`retry: false` — a fatal failure, not the retryable failure the claim
states. -/
theorem C4_counterexample :
    fillOrders_gh ⟨true, "", false, true, ""⟩ [⟨"a", [("Cheese Pizza", [])], false⟩] =
      .fail ⟨false, ["Delivery minimum not met."]⟩ ∧
    (FailOut.mk false ["Delivery minimum not met."]).retry ≠ true := by
  decide

/-- C4 (amended): when the surface reports that the minimum order
threshold is not met after all items are added, the fill-items step fails
NON-retryably: the Grubhub variant returns `retry: false` with
"Delivery minimum not met."; the Seamless variant throws a `TypeError`
(mapping over the `orderAmounts` object) that escapes to the pipeline
boundary, which converts it into the terminal generic failure. -/
theorem C4_minimum_not_met (page : GhPage) (userOrders : List UserOrder)
    (oa : List (String × Rat)) (navOk : Bool) (navErr : String)
    (hitems : page.itemsOk = true) (hmin : page.checkoutEnabled = false) :
    fillOrders_gh page userOrders = .fail ⟨false, ["Delivery minimum not met."]⟩ ∧
    fillOrders_sl_tail 0 oa navOk navErr =
      .thrown "TypeError: orderAmounts.map is not a function" := by
  constructor
  · simp [fillOrders_gh, hitems, hmin]
  · rfl

/-- C4 witness: a concrete disabled-checkout page. -/
theorem C4_minimum_not_met_witness :
    fillOrders_gh ⟨true, "", false, true, ""⟩ [] =
      .fail ⟨false, ["Delivery minimum not met."]⟩ ∧
    fillOrders_sl_tail 0 [] true "" =
      .thrown "TypeError: orderAmounts.map is not a function" :=
  C4_minimum_not_met ⟨true, "", false, true, ""⟩ [] [] true "" rfl rfl

/-- C5: a step returning `RetryableFailure` or `FatalFailure` halts the
attempt immediately — only the continue-steps before it and the failing
step itself execute — and a `FatalFailure` (`retry: false`) is returned as
the batch result after a single pipeline invocation, regardless of how
many retry attempts remain. -/
theorem C5_halt_on_failure {α : Type} (merge : α → α → α) (init : α)
    (pre post : List (StepRes α)) (f : FailOut)
    (attempts : Nat → List (StepRes α)) (retries : Nat)
    (hpre : ∀ s ∈ pre, isContinueStep s = true) :
    runAttempt merge (pre ++ .fail f :: post) init = .fail f ∧
    attemptStepsRun (pre ++ .fail f :: post) = pre.length + 1 ∧
    (f.retry = false → attempts 0 = pre ++ .fail f :: post →
      orderFromRestaurant attempts merge init retries 0 = .fail f ∧
      pipelineInvocations attempts merge init retries 0 = 1) := by
  refine ⟨runAttempt_first_fail merge f post pre init hpre,
    attemptStepsRun_first_fail f post pre hpre, ?_⟩
  intro hfr hat
  have h0 : runAttempt merge (attempts 0) init = .fail f := by
    rw [hat]; exact runAttempt_first_fail merge f post pre init hpre
  constructor
  · cases retries <;> simp [orderFromRestaurant, h0, hfr]
  · cases retries <;> simp [pipelineInvocations, h0, hfr]

/-- C5 witness: a fatal restaurant-not-found failure on the second step,
with the full retry budget remaining. -/
theorem C5_halt_on_failure_witness :
    runAttempt (fun a b : Nat => a + b)
      ([StepRes.noOut] ++ .fail ⟨false, ["Restaurant does not exist or is closed at this time."]⟩ ::
        [StepRes.out 7]) 0 =
      .fail ⟨false, ["Restaurant does not exist or is closed at this time."]⟩ ∧
    attemptStepsRun
      ([StepRes.noOut] ++
        StepRes.fail ⟨false, ["Restaurant does not exist or is closed at this time."]⟩ ::
        [StepRes.out (7 : Nat)]) = 2 ∧
    orderFromRestaurant (fun _ => [StepRes.noOut,
      StepRes.fail ⟨false, ["Restaurant does not exist or is closed at this time."]⟩,
      StepRes.out 7]) (fun a b : Nat => a + b) 0 INITIAL_RETRIES 0 =
      .fail ⟨false, ["Restaurant does not exist or is closed at this time."]⟩ ∧
    pipelineInvocations (fun _ => [StepRes.noOut,
      StepRes.fail ⟨false, ["Restaurant does not exist or is closed at this time."]⟩,
      StepRes.out 7]) (fun a b : Nat => a + b) 0 INITIAL_RETRIES 0 = 1 := by
  have h := C5_halt_on_failure (fun a b : Nat => a + b) 0 [StepRes.noOut] [StepRes.out 7]
    ⟨false, ["Restaurant does not exist or is closed at this time."]⟩
    (fun _ => [StepRes.noOut,
      StepRes.fail ⟨false, ["Restaurant does not exist or is closed at this time."]⟩,
      StepRes.out 7]) INITIAL_RETRIES (by decide)
  exact ⟨h.1, h.2.1, (h.2.2 rfl rfl).1, (h.2.2 rfl rfl).2⟩

/-- C6 counterexample: an attempt whose step throws is converted at the
boundary into the generic failure, whose `retry` flag is ABSENT (falsy),
and the batch is returned after a single pipeline invocation even though
the full retry budget remained — not the retryable, re-attempted outcome
the claim states. -/
theorem C6_counterexample :
    orderFromRestaurant (fun _ => [StepRes.thrown "boom"]) (fun _ b : Nat => b) 0
      INITIAL_RETRIES 0 = .fail unknownReasonFailure ∧
    unknownReasonFailure.retry = false ∧
    pipelineInvocations (fun _ => [StepRes.thrown "boom"]) (fun _ b : Nat => b) 0
      INITIAL_RETRIES 0 = 1 := by
  decide

/-- C6 (amended): an unexpected exception inside a pipeline attempt is
caught at the outer boundary and converted into the generic failure
`{ errors: ["Order failed for unknown reason."] }`, which carries no
`retry` flag: the retry controller receives a well-formed outcome, but the
failure is terminal — the batch is NOT re-attempted. -/
theorem C6_boundary_catch {α : Type} (attempts : Nat → List (StepRes α))
    (merge : α → α → α) (init : α) (retries idx : Nat) (msg : String)
    (h : runAttempt merge (attempts idx) init = .crashed msg) :
    orderFromRestaurant attempts merge init retries idx = .fail unknownReasonFailure ∧
    unknownReasonFailure.retry = false ∧
    pipelineInvocations attempts merge init retries idx = 1 := by
  refine ⟨?_, rfl, ?_⟩
  · cases retries <;> simp [orderFromRestaurant, h]
  · cases retries <;> simp [pipelineInvocations, h]

/-- C6 witness: a crash on the first step of the first attempt. -/
theorem C6_boundary_catch_witness :
    orderFromRestaurant (fun _ => [StepRes.thrown "ReferenceError"]) (fun _ b : Nat => b) 0
      INITIAL_RETRIES 0 = .fail unknownReasonFailure ∧
    unknownReasonFailure.retry = false ∧
    pipelineInvocations (fun _ => [StepRes.thrown "ReferenceError"]) (fun _ b : Nat => b) 0
      INITIAL_RETRIES 0 = 1 :=
  C6_boundary_catch (fun _ => [StepRes.thrown "ReferenceError"]) (fun _ b : Nat => b) 0
    INITIAL_RETRIES 0 "ReferenceError" rfl

/-- The concat-reduce of `fillPhoneNumber` builds exactly the slack ids of
the non-donor orders, in order. -/
theorem calleePool_eq_filter_map (orders : List UserOrder) :
    calleePool orders = (orders.filter (fun o => !o.isDonor)).map (fun o => o.slackId) := by
  have haux : ∀ (l : List UserOrder) (init : List String),
      l.foldl (fun memo o => if o.isDonor then memo else memo ++ [o.slackId]) init =
        init ++ (l.filter (fun o => !o.isDonor)).map (fun o => o.slackId) := by
    intro l
    induction l with
    | nil => intro init; simp
    | cons h t ih =>
      intro init
      by_cases hd : h.isDonor
      · rw [List.foldl_cons, if_pos hd, ih init]
        simp [List.filter_cons, hd]
      · rw [List.foldl_cons, if_neg hd, ih (init ++ [h.slackId])]
        simp [List.filter_cons, hd]
  simpa using haux orders []

/-- C7: the callee `fillPhoneNumber` selects is always a non-donor
participant, and only non-donor participants appear in the stats recording
of a successful batch. -/
theorem C7_donors_excluded (orders : List UserOrder) (pick : Nat)
    (os : OrderSet) (r : OrderResult)
    (hne : ∃ o ∈ orders, o.isDonor = false)
    (hpick : pick < (calleePool orders).length)
    (hos : os.users = orders) :
    calleePool orders ≠ [] ∧
    (∃ sid, fillPhoneNumberSelect orders pick = some sid ∧
      ∃ o ∈ orders, o.slackId = sid ∧ o.isDonor = false) ∧
    (∀ u ∈ orders, u.isDonor = true → u ∉ orderParticipants orders) ∧
    (∀ rec ∈ statsRecords os r,
      ∃ o ∈ orders, o.slackId = rec.slackId ∧ o.isDonor = false) := by
  refine ⟨?_, ?_, ?_, ?_⟩
  · obtain ⟨o, ho, hod⟩ := hne
    rw [calleePool_eq_filter_map]
    intro hemp
    have hm : o.slackId ∈ (orders.filter (fun o => !o.isDonor)).map (fun o => o.slackId) :=
      List.mem_map_of_mem _ (List.mem_filter.mpr ⟨ho, by simp [hod]⟩)
    rw [hemp] at hm
    simp at hm
  · refine ⟨(calleePool orders).get ⟨pick, hpick⟩, ?_, ?_⟩
    · show (calleePool orders).get? pick = _
      exact List.get?_eq_get hpick
    · have hm : (calleePool orders).get ⟨pick, hpick⟩ ∈ calleePool orders :=
        List.get_mem _ _ _
      have hm2 : (calleePool orders).get ⟨pick, hpick⟩ ∈
          (orders.filter (fun o => !o.isDonor)).map (fun o => o.slackId) := by
        rw [← calleePool_eq_filter_map]; exact hm
      obtain ⟨o, hof, hsid⟩ := List.mem_map.mp hm2
      obtain ⟨hoo, hnd⟩ := List.mem_filter.mp hof
      exact ⟨o, hoo, hsid, by simpa using hnd⟩
  · intro u _ hd hmem
    rw [orderParticipants] at hmem
    have hnd := (List.mem_filter.mp hmem).2
    simp [hd] at hnd
  · intro rec hrec
    rw [statsRecords] at hrec
    obtain ⟨u, hu, hfu⟩ := List.mem_map.mp hrec
    rw [orderParticipants] at hu
    obtain ⟨huo, hnd⟩ := List.mem_filter.mp hu
    refine ⟨u, hos ▸ huo, ?_, by simpa using hnd⟩
    rw [← hfu]

/-- C7 witness: one donor and one non-donor participant; the pool has one
entry and the random index is 0. -/
theorem C7_donors_excluded_witness :
    calleePool [⟨"d", [], true⟩, ⟨"a", [], false⟩] ≠ [] ∧
    (∃ sid, fillPhoneNumberSelect [⟨"d", [], true⟩, ⟨"a", [], false⟩] 0 = some sid ∧
      ∃ o ∈ [(⟨"d", [], true⟩ : UserOrder), ⟨"a", [], false⟩],
        o.slackId = sid ∧ o.isDonor = false) ∧
    (∀ u ∈ [(⟨"d", [], true⟩ : UserOrder), ⟨"a", [], false⟩], u.isDonor = true →
      u ∉ orderParticipants [⟨"d", [], true⟩, ⟨"a", [], false⟩]) ∧
    (∀ rec ∈ statsRecords ⟨"Pizza Place", [⟨"d", [], true⟩, ⟨"a", [], false⟩]⟩
        ⟨⟨"a", "A", "555"⟩, []⟩,
      ∃ o ∈ [(⟨"d", [], true⟩ : UserOrder), ⟨"a", [], false⟩],
        o.slackId = rec.slackId ∧ o.isDonor = false) :=
  C7_donors_excluded [⟨"d", [], true⟩, ⟨"a", [], false⟩] 0
    ⟨"Pizza Place", [⟨"d", [], true⟩, ⟨"a", [], false⟩]⟩ ⟨⟨"a", "A", "555"⟩, []⟩
    ⟨⟨"a", [], false⟩, by decide, rfl⟩ (by decide) rfl

/-- The result pushed for a batch always reports that batch's
restaurant. -/
theorem batchResultOf_restaurant (runBatch : OrderSet → PipeResult OrderResult)
    (os : OrderSet) : (batchResultOf runBatch os).restaurant = os.restaurant := by
  unfold batchResultOf
  cases runBatch os <;> rfl

/-- C8: `go` produces exactly one `BatchResult` per input batch — the
results list has the same length as the input, and the `i`-th result is
the single result of the `i`-th batch, reporting that batch's
restaurant. -/
theorem C8_one_result_per_batch (runBatch : OrderSet → PipeResult OrderResult)
    (orderSets : List OrderSet) :
    (go_results runBatch orderSets).length = orderSets.length ∧
    ∀ i : Nat, ∀ h : i < orderSets.length,
      (go_results runBatch orderSets).get? i =
        some (batchResultOf runBatch (orderSets.get ⟨i, h⟩)) ∧
      ((go_results runBatch orderSets).get? i).map BatchResult.restaurant =
        some (orderSets.get ⟨i, h⟩).restaurant := by
  constructor
  · rw [go_results_eq_map, List.length_map]
  · intro i h
    have hg : (go_results runBatch orderSets).get? i =
        some (batchResultOf runBatch (orderSets.get ⟨i, h⟩)) := by
      rw [go_results_eq_map, List.get?_map, List.get?_eq_get h]
      rfl
    refine ⟨hg, ?_⟩
    rw [hg]
    simp [batchResultOf_restaurant]

/-- C8 witness: two batches, both failing; the second result reports the
second restaurant. -/
theorem C8_one_result_per_batch_witness :
    ((go_results (fun _ => PipeResult.fail ⟨false, ["err"]⟩)
        [⟨"R1", []⟩, ⟨"R2", []⟩]).get? 1).map BatchResult.restaurant = some "R2" :=
  ((C8_one_result_per_batch (fun _ => PipeResult.fail ⟨false, ["err"]⟩)
    [⟨"R1", []⟩, ⟨"R2", []⟩]).2 1 (by decide)).2

/-- C9: in the Grubhub variant, every successful `fillOrders` outputs an
EMPTY `orderAmounts` (the accumulation is commented out); consequently the
budget-violation search over it reports amount 0 with no participant, and
every stats call of a successful batch receives `undefined` (`none`) as
the amount spent. -/
theorem C9_gh_orderAmounts_empty (page : GhPage) (userOrders : List UserOrder)
    (out : FillOrdersOut) (users : String → String) (slackIds : List String)
    (alloc : List Rat) (os : OrderSet) (r : OrderResult)
    (hout : fillOrders_gh page userOrders = .out out)
    (hv : maxExceeds alloc 25 = true)
    (hr : r.orderAmounts = []) :
    out.orderAmounts = [] ∧
    (fillNames_gh users slackIds [] alloc).outcome =
      .violation false (listSum alloc - (slackIds.length : Rat) * 25) none 0 ∧
    (∀ rec ∈ statsRecords os r, rec.amountSpent = none) := by
  refine ⟨?_, ?_, ?_⟩
  · have hempty : out = ⟨[]⟩ := by
      unfold fillOrders_gh at hout
      split_ifs at hout <;> simp_all
    rw [hempty]
  · simp [fillNames_gh, hv, maxOrderSearch]
  · intro rec hrec
    rw [statsRecords] at hrec
    obtain ⟨u, _, hfu⟩ := List.mem_map.mp hrec
    rw [← hfu]
    simp [lookupAmt, hr]

/-- C9 witness: a successful cart pass with one participant and a
violating allocation of 30. -/
theorem C9_gh_orderAmounts_empty_witness :
    (FillOrdersOut.mk []).orderAmounts = [] ∧
    (fillNames_gh (fun _ => "A") ["a"] [] [30]).outcome =
      .violation false (listSum [30] - ((["a"] : List String).length : Rat) * 25) none 0 ∧
    (∀ rec ∈ statsRecords ⟨"R", [⟨"a", [], false⟩]⟩ ⟨⟨"a", "A", "555"⟩, []⟩,
      rec.amountSpent = none) :=
  C9_gh_orderAmounts_empty ⟨true, "", true, true, ""⟩ [] ⟨[]⟩ (fun _ => "A") ["a"]
    [30] ⟨"R", [⟨"a", [], false⟩]⟩ ⟨⟨"a", "A", "555"⟩, []⟩ rfl (by decide) rfl

/-- C10: the Grubhub `fillNames` enters a name into the cost-split
allocation UI exactly when it is the registered display name of a listed
participant and is not the ordering account's own name "ajay gandhi"
(compared case-insensitively). -/
theorem C10_skip_own_name (users : String → String) (slackIds : List String)
    (orderAmounts : List (String × Rat)) (alloc : List Rat) (n : String) :
    n ∈ (fillNames_gh users slackIds orderAmounts alloc).entered ↔
      (∃ sid ∈ slackIds, users sid = n) ∧ jsToLower n ≠ "ajay gandhi" := by
  show n ∈ fillNamesEntered_gh users slackIds ↔ _
  rw [fillNamesEntered_gh, List.mem_filterMap]
  constructor
  · rintro ⟨sid, hsid, hf⟩
    by_cases hl : jsToLower (users sid) = "ajay gandhi"
    · simp [hl] at hf
    · simp [beq_eq_false_iff_ne.mpr hl] at hf
      exact ⟨⟨sid, hsid, hf⟩, hf ▸ hl⟩
  · rintro ⟨⟨sid, hsid, heq⟩, hne⟩
    refine ⟨sid, hsid, ?_⟩
    rw [heq]
    simp [beq_eq_false_iff_ne.mpr hne]

/-- C10 witness: the account's own name "Ajay Gandhi" is skipped while
"Bob B" is entered. -/
theorem C10_skip_own_name_witness :
    "Bob B" ∈ (fillNames_gh
        (fun sid => if sid = "u1" then "Ajay Gandhi" else "Bob B")
        ["u1", "u2"] [] []).entered ∧
    "Ajay Gandhi" ∉ (fillNames_gh
        (fun sid => if sid = "u1" then "Ajay Gandhi" else "Bob B")
        ["u1", "u2"] [] []).entered := by
  constructor
  · exact (C10_skip_own_name (fun sid => if sid = "u1" then "Ajay Gandhi" else "Bob B")
      ["u1", "u2"] [] [] "Bob B").mpr ⟨⟨"u2", by decide, by decide⟩, by decide⟩
  · intro hmem
    have h := (C10_skip_own_name (fun sid => if sid = "u1" then "Ajay Gandhi" else "Bob B")
      ["u1", "u2"] [] [] "Ajay Gandhi").mp hmem
    exact h.2 (by decide)

end Alfred
